import Mathlib

/-!
Verification development for the Timer-chan repository: a shallow embedding of
the timer / focus-tracking / configuration logic of `src/timer_app.py`,
`src/config_manager.py`, `src/program_manager.py` and `src/ui/window_grabber.py`,
together with theorems settling the specification's claims about it.

Conventions of the embedding:
* Python strings are modelled as `List Char` (abbreviated `Str`); `str s` turns a
  Lean string literal into this representation.
* Python exceptions raised by the modelled code are `Option`/`Except` failures
  (`none` / `.error`): the mutation that would have followed the raising
  expression never happens, which is how "state left unchanged on failure"
  is expressed.
* GUI side effects that the claims observe (background-colour swaps, the
  self-selection warning box, the debug prints of `set_program_from_info`) are
  reified as an `Effect` list returned next to the new state.  Display-only
  label updates (`self.timeLabel.setText`) are omitted: no claim observes them.
* The standard-library `configparser` backing file is modelled at the level of
  its parsed section mapping (`DiskFile.stored`), with explicit constructors
  for a missing file (which `ConfigParser.read` silently ignores) and for
  unparseable content (on which `ConfigParser.read` raises, e.g.
  `MissingSectionHeaderError` for a file whose first meaningful line is not a
  section header).
-/

set_option autoImplicit false

namespace TimerChan

/-- Python strings, modelled as lists of characters. -/
abbrev Str := List Char

/-- Coercion from Lean string literals into the model's string type. -/
def str (s : String) : Str := s.data

/-! ## Python `int(...)` and `str(...)` on integers -/

/-- The whitespace characters `int(...)` strips from both ends of its argument
(ASCII subset; exotic unicode whitespace is not modelled, no claim uses it). -/
def isPySpace (c : Char) : Bool :=
  c = ' ' || c = '\t' || c = '\n' || c = '\r' || c = '\x0b' || c = '\x0c'

/-- Strip `isPySpace` characters from both ends, as Python `int(...)` does. -/
def stripWS (s : Str) : Str :=
  ((s.dropWhile isPySpace).reverse.dropWhile isPySpace).reverse

/-- The decimal digit characters, as values. -/
def charDigit (c : Char) : Option Nat :=
  if c = '0' then some 0 else if c = '1' then some 1 else if c = '2' then some 2
  else if c = '3' then some 3 else if c = '4' then some 4 else if c = '5' then some 5
  else if c = '6' then some 6 else if c = '7' then some 7 else if c = '8' then some 8
  else if c = '9' then some 9 else none

/-- Decimal digit to character; only applied to values `< 10`. -/
def digitChar : Nat → Char
  | 0 => '0' | 1 => '1' | 2 => '2' | 3 => '3' | 4 => '4'
  | 5 => '5' | 6 => '6' | 7 => '7' | 8 => '8' | _ => '9'

/-- Fold a most-significant-digit-first digit string to a number, failing on the
first non-digit character. -/
def digitsToNat (l : Str) : Option Nat :=
  l.foldl (fun acc c => do
    let a ← acc
    let d ← charDigit c
    pure (a * 10 + d)) (some 0)

/-- A nonempty all-digit string read as a natural number (the unsigned core of
Python `int(...)`; digit-grouping underscores are not modelled, no claim uses
them). -/
def pyUInt (l : Str) : Option Nat :=
  if l = [] then none else digitsToNat l

/-- The sign-and-digits core of Python `int(...)`, applied after whitespace
stripping: optional single `+`/`-` sign, then a nonempty run of decimal
digits. -/
def pyIntCore : Str → Option Int
  | [] => none
  | c :: ds =>
    if c = '+' then (pyUInt ds).map Int.ofNat
    else if c = '-' then (pyUInt ds).map (fun n => -(n : Int))
    else (pyUInt (c :: ds)).map Int.ofNat

/-- Python `int(s)` on a string: strip whitespace, optional single sign, then a
nonempty run of decimal digits; anything else raises `ValueError` (`none`). -/
def pyInt (s : Str) : Option Int := pyIntCore (stripWS s)

/-- Little-endian decimal digit characters of `n`, with explicit fuel so that
the definition is structural (the fuel is always instantiated with `n` itself,
which suffices since `n / 10 < n`). -/
def natToCharsAux : Nat → Nat → List Char
  | _, 0 => []
  | 0, _ + 1 => []
  | fuel + 1, n + 1 => digitChar ((n + 1) % 10) :: natToCharsAux fuel ((n + 1) / 10)

/-- Python `str(n)` for a natural number: decimal digits, `"0"` for zero. -/
def natToStr (n : Nat) : Str :=
  if n = 0 then ['0'] else (natToCharsAux n n).reverse

/-- Python `str(i)` for an integer: a `-` sign followed by the digits when
negative. -/
def intToStr (i : Int) : Str :=
  if i < 0 then '-' :: natToStr i.natAbs else natToStr i.toNat

/-- Python `s.split(sep)` for a single-character separator (no maxsplit):
`"".split(c) = [""]`, and every occurrence of the separator cuts. -/
def pySplit (sep : Char) : Str → List Str
  | [] => [[]]
  | c :: cs =>
    match pySplit sep cs with
    | h :: t => if c = sep then [] :: h :: t else (c :: h) :: t
    | [] => [[c]]

/-- Python `str.lower()` on one character (ASCII; `configparser`'s default
`optionxform`). -/
def lowerChar (c : Char) : Char :=
  if 65 ≤ c.toNat ∧ c.toNat ≤ 90 then Char.ofNat (c.toNat + 32) else c

/-- Python `str.lower()` (ASCII). -/
def lowerStr (s : Str) : Str := s.map lowerChar

/-- The ten decimal digit characters. -/
def digitCharList : List Char := ['0', '1', '2', '3', '4', '5', '6', '7', '8', '9']

/-! ## Python values and the configuration store (`src/config_manager.py`)

`ConfigManager` wraps a `configparser.ConfigParser`.  The values the repository
stores are booleans, integers and strings, modelled by `PyVal`.  Note that in
Python `bool` is a subclass of `int`, so `isinstance(default_value, int)` is
also true for booleans; `get_value` tests `isinstance(..., bool)` first, which
is the priority the model mirrors (`pyIsInstanceBool` / `pyIsInstanceInt`). -/

/-- The Python values the repository stores in its configuration. -/
inductive PyVal where
  | bool (b : Bool)
  | int (i : Int)
  | str (s : Str)
  deriving DecidableEq

/-- The Python runtime type of a `PyVal` (what `type(v)` would report). -/
inductive PyType where
  | bool | int | str
  deriving DecidableEq

/-- `type(v)` of a modelled value. -/
def pvType : PyVal → PyType
  | .bool _ => .bool
  | .int _ => .int
  | .str _ => .str

/-- `isinstance(v, bool)`. -/
def pyIsInstanceBool : PyVal → Bool
  | .bool _ => true
  | _ => false

/-- `isinstance(v, int)`: true for booleans as well, since Python's `bool` is a
subclass of `int`. -/
def pyIsInstanceInt : PyVal → Bool
  | .bool _ => true
  | .int _ => true
  | _ => false

/-- Python `str(v)`: `str(True) = "True"`, `str(False) = "False"`, decimal
rendering for integers, identity on strings. -/
def pyStr : PyVal → Str
  | .bool true => str "True"
  | .bool false => str "False"
  | .int i => intToStr i
  | .str s => s

/-- `configparser`'s `_convert_to_boolean`, used by `getboolean`: the lowered
value must be one of the eight `BOOLEAN_STATES` keys, anything else raises
`ValueError` (`none`). -/
def pyBoolParse (v : Str) : Option Bool :=
  let l := lowerStr v
  if l = str "1" ∨ l = str "yes" ∨ l = str "true" ∨ l = str "on" then some true
  else if l = str "0" ∨ l = str "no" ∨ l = str "false" ∨ l = str "off" then some false
  else none

/-- One section's options: an insertion-ordered association list, mirroring the
`dict` used by `configparser` (keys unique in any state the program builds). -/
abbrev Options := List (Str × Str)

/-- Update the value of `key`, replacing the first binding when present and
appending otherwise — exactly the visible behaviour of a Python `dict` write. -/
def updAssoc (key val : Str) : Options → Options
  | [] => [(key, val)]
  | (k, v) :: rest => if k = key then (key, val) :: rest else (k, v) :: updAssoc key val rest

/-- Look up `key` (first binding). -/
def getAssoc (key : Str) : Options → Option Str
  | [] => none
  | (k, v) :: rest => if k = key then some v else getAssoc key rest

/-- The parsed sections of an INI file: section name to options. -/
abbrev Sections := List (Str × Options)

/-- The in-memory `ConfigParser` state held by `ConfigManager`. -/
structure PyConfig where
  sections : Sections
  deriving DecidableEq

/-- The options of the first section named `s` (`configparser`'s section
dictionary lookup). -/
def getSec : Sections → Str → Option Options
  | [], _ => none
  | (n, opts) :: rest, s => if n = s then some opts else getSec rest s

/-- `config.has_section(sect)`. -/
def has_section (cfg : PyConfig) (sect : Str) : Bool :=
  (getSec cfg.sections sect).isSome

/-- `config.add_section(sect)` (only ever called when absent). -/
def add_section (cfg : PyConfig) (sect : Str) : PyConfig :=
  ⟨cfg.sections ++ [(sect, [])]⟩

/-- Update `key` within the first section named `sect`. -/
def updSections (sect key val : Str) : Sections → Sections
  | [] => []
  | (n, opts) :: rest =>
    if n = sect then (n, updAssoc key val opts) :: rest
    else (n, opts) :: updSections sect key val rest

/-- `config.set(sect, key, value)`: stores under `optionxform(key)` (handled by
the caller here); raises `NoSectionError` (`none`) when the section is
missing. -/
def configSet (cfg : PyConfig) (sect key val : Str) : Option PyConfig :=
  if has_section cfg sect then some ⟨updSections sect key val cfg.sections⟩ else none

/-- `config.get(sect, key)` without fallback: the raw stored string, or `none`
when the section or the option is missing. -/
def configGet (cfg : PyConfig) (sect key : Str) : Option Str :=
  match getSec cfg.sections sect with
  | none => none
  | some opts => getAssoc key opts

/-! ### The backing file `timer.ini`

`ConfigManager.save_config` rewrites the whole file from the in-memory state;
`ConfigParser.read` silently ignores a missing file but raises (e.g.
`MissingSectionHeaderError` for a file whose first meaningful line is not a
section header, or `ParsingError`) on content it cannot parse, and
`load_config` does not catch that exception.  The file is modelled at the
level of its parsed section mapping, with explicit constructors for the
missing-file and unparseable-content cases. -/

inductive DiskFile where
  /-- `timer.ini` does not exist; `ConfigParser.read` ignores it. -/
  | missing
  /-- `timer.ini` exists but `ConfigParser.read` cannot parse it (for example a
  file whose first non-blank, non-comment line is `garbage` — no section
  header — on which `read` raises `MissingSectionHeaderError`). -/
  | corrupt
  /-- A well-formed file, carrying its parsed section mapping (the exact
  content `config.write` produces for that mapping). -/
  | stored (sections : Sections)
  deriving DecidableEq

/-- `self.config.read('timer.ini')` applied to a fresh parser: the parsed
sections, or an error for unparseable content. -/
def readIni : DiskFile → Except Unit Sections
  | .missing => .ok []
  | .corrupt => .error ()
  | .stored s => .ok s

/-- `ConfigManager.save_config`: overwrite `timer.ini` with the in-memory
state. -/
def save_config (cfg : PyConfig) : DiskFile := .stored cfg.sections

/-- `ConfigManager.load_config`: read `timer.ini` (a raised parse error
propagates to the caller), ensure the `'section'` section exists, and save.
Returns the resulting parser state and the resulting on-disk file. -/
def load_config (d : DiskFile) : Except Unit (PyConfig × DiskFile) :=
  match readIni d with
  | .error e => .error e
  | .ok secs =>
    let cfg : PyConfig := ⟨secs⟩
    let cfg := if has_section cfg (str "section") then cfg else add_section cfg (str "section")
    .ok (cfg, save_config cfg)

/-- `ConfigManager.set_value(key, value)`: `config.set('section', key,
str(value))`, with `optionxform` lowering the key. -/
def set_value (cfg : PyConfig) (key : Str) (value : PyVal) : Option PyConfig :=
  configSet cfg (str "section") (lowerStr key) (pyStr value)

/-- `ConfigManager.get_value(key, default_value)`: dispatches on the runtime
type of the default — `bool` first (via `getboolean`), then `int` (via
`getint`), then the plain string `get` — falling back to the default when the
key is absent; a stored value the typed accessor cannot convert raises
`ValueError` (`none`). -/
def get_value (cfg : PyConfig) (key : Str) (default_value : PyVal) : Option PyVal :=
  if pyIsInstanceBool default_value then
    match configGet cfg (str "section") (lowerStr key) with
    | none => some default_value
    | some v => (pyBoolParse v).map .bool
  else if pyIsInstanceInt default_value then
    match configGet cfg (str "section") (lowerStr key) with
    | none => some default_value
    | some v => (pyInt v).map .int
  else
    match configGet cfg (str "section") (lowerStr key) with
    | none => some default_value
    | some v => some (.str v)

/-- The string-typed `get_value` as the program uses it for string defaults
(that branch never raises): the stored string, or the default. -/
def get_value_str (cfg : PyConfig) (key : Str) (default : Str) : Str :=
  match configGet cfg (str "section") (lowerStr key) with
  | none => default
  | some v => v

/-- `ConfigManager.get_all_programs`: always the three slots `Program1`,
`Program2`, `Program3`, with `''` as the default for unset slots. -/
def get_all_programs (cfg : PyConfig) : List Str :=
  [get_value_str cfg (str "Program1") [],
   get_value_str cfg (str "Program2") [],
   get_value_str cfg (str "Program3") []]

/-! ## The timer application (`src/timer_app.py`)

The observable state of a `TimerApp` widget: the `ConfigParser` it owns, the
on-disk `timer.ini`, the configuration-derived fields `loadConfig` populates,
the timer (`timerActive`, `h`/`m`/`s`), and the assignment-workflow fields.
`timeLabel` (a display-only Qt label) and the Qt wiring are omitted: no claim
observes them.  GUI side effects the claims do observe are reified as
`Effect`s. -/

/-- Observable side effects of the timer logic. -/
inductive Effect where
  /-- `self.setStyleSheet(f"background-color: #{color};")`. -/
  | setStyle (color : Str)
  /-- `QMessageBox.warning(self, "Invalid Selection", "You cannot select the timer app itself.")`. -/
  | warnSelfSelection
  /-- `print(f"Program {slot} set to: {title} (PID: {pid})")`. -/
  | printSetProgram (slot : Option Nat) (title : Str) (pid : Nat)
  /-- `print("Failed to get window title. Please try again.")`. -/
  | printFailGetTitle
  deriving DecidableEq

/-- The observable state of the `TimerApp` widget. -/
structure TimerApp where
  /-- `self.config_manager.config`: the in-memory `ConfigParser`. -/
  config : PyConfig
  /-- The on-disk `timer.ini`. -/
  disk : DiskFile
  /-- `self.idleTime` (loaded, never consulted by the tick logic). -/
  idleTime : Int
  /-- `self.watched_programs`. -/
  watched_programs : List Str
  /-- `self.lastTime`. -/
  lastTime : Str
  /-- `self.colorAlert`. -/
  colorAlert : Bool
  /-- `self.onColor`. -/
  onColor : Str
  /-- `self.offColor`. -/
  offColor : Str
  /-- `self.timerActive`: `true` is the Running state, `false` is Idle. -/
  timerActive : Bool
  /-- `self.h`. -/
  h : Int
  /-- `self.m`. -/
  m : Int
  /-- `self.s`. -/
  s : Int
  /-- `self.own_pid`. -/
  own_pid : Nat
  /-- `self.waitingForWindowSelection`. -/
  waitingForWindowSelection : Bool
  /-- `self.programToSet` (`None` at startup). -/
  programToSet : Option Nat
  deriving DecidableEq

/-- The elapsed time as a number of seconds: the `(h, m, s)` triple read as
`h*3600 + m*60 + s`. -/
def elapsed (st : TimerApp) : Int := st.h * 3600 + st.m * 60 + st.s

/-- `TimerApp.loadConfig`: re-derive the configuration-backed fields from the
in-memory parser.  `getint`/`getboolean` on an unconvertible stored string
raise `ValueError` (`none`). -/
def loadConfig (st : TimerApp) : Option TimerApp := do
  let idle ← get_value st.config (str "Timeout") (.int 10)
  let idleN ← match idle with | .int n => some n | _ => none
  let watched := get_all_programs st.config
  let lastS := get_value_str st.config (str "LastTime") (str "00:00:00")
  let ca ← get_value st.config (str "ColorAlert") (.bool true)
  let caB ← match ca with | .bool b => some b | _ => none
  let onS := get_value_str st.config (str "OnColor") (str "c2ff57")
  let offS := get_value_str st.config (str "OffColor") (str "bfbfbf")
  pure { st with idleTime := idleN, watched_programs := watched, lastTime := lastS,
                 colorAlert := caB, onColor := onS, offColor := offS }

/-- `TimerApp.incrementTime`: one second, with carry; seconds and minutes reset
at 60, hours unbounded. -/
def incrementTime (st : TimerApp) : TimerApp :=
  let s := st.s + 1
  if 60 ≤ s then
    let m := st.m + 1
    if 60 ≤ m then { st with s := 0, m := 0, h := st.h + 1 }
    else { st with s := 0, m := m }
  else { st with s := s }

/-- `TimerApp.activateTimer`: start only when not already active; swap the
background colour only when colour alerts are enabled. -/
def activateTimer (st : TimerApp) : TimerApp × List Effect :=
  if st.timerActive then (st, [])
  else ({ st with timerActive := true },
        if st.colorAlert then [.setStyle st.onColor] else [])

/-- `TimerApp.deactivateTimer`: stop only when active; swap the background
colour only when colour alerts are enabled. -/
def deactivateTimer (st : TimerApp) : TimerApp × List Effect :=
  if st.timerActive then
    ({ st with timerActive := false },
     if st.colorAlert then [.setStyle st.offColor] else [])
  else (st, [])

/-- `TimerApp.checkActiveWindow`, with the sampled foreground process name
(`WindowGrabber.get_active_window_title`, which returns `""` on any OS failure
or on a non-Windows platform) passed in as `active_window`: Python's
`active_window in self.watched_programs` is exact string membership. -/
def checkActiveWindow (active_window : Str) (st : TimerApp) : TimerApp × List Effect :=
  if active_window ∈ st.watched_programs then activateTimer st else deactivateTimer st

/-- `TimerApp.updateTimer`: the once-per-second tick. Increment first (when
running), then re-check the focused window. -/
def updateTimer (active_window : Str) (st : TimerApp) : TimerApp × List Effect :=
  let st1 := if st.timerActive then incrementTime st else st
  checkActiveWindow active_window st1

/-- A run of consecutive ticks, given the sampled window title of each:
the final state and the concatenated side effects. -/
def runTicks : List Str → TimerApp → TimerApp × List Effect
  | [], st => (st, [])
  | w :: ws, st =>
    ((runTicks ws (updateTimer w st).1).1,
     (updateTimer w st).2 ++ (runTicks ws (updateTimer w st).1).2)

/-- `TimerApp.resumePreviousTime`: `h, m, s = map(int, self.lastTime.split(':'))`.
A wrong segment count or an unparseable segment raises `ValueError` (`none`)
before any field is assigned. No range check is performed on the parsed
values. -/
def resumePreviousTime (st : TimerApp) : Option TimerApp :=
  match pySplit ':' st.lastTime with
  | [a, b, c] =>
    match pyInt a, pyInt b, pyInt c with
    | some hv, some mv, some sv => some { st with h := hv, m := mv, s := sv }
    | _, _, _ => none
  | _ => none

/-- The string `f"Program{self.programToSet}"` (Python renders `None` as
`"None"`). -/
def programKey (slot : Option Nat) : Str :=
  str "Program" ++ (match slot with | some n => natToStr n | none => str "None")

/-- `TimerApp.set_program_from_info(window_title, pid)`: resolve a pending
assignment.  Clears the pending flag, then: own-pid selections are rejected
with a warning box; a non-empty title is committed via `set_value`, persisted
via `save_config`, and `loadConfig` re-derives the watch-list; an empty title
just notifies failure.  `none` models a raised exception (`NoSectionError`
from `config.set`, or `ValueError` from the reload's typed reads). -/
def set_program_from_info (window_title : Str) (pid : Nat) (st : TimerApp) :
    Option (TimerApp × List Effect) :=
  if st.waitingForWindowSelection then
    let st0 := { st with waitingForWindowSelection := false }
    if pid = st.own_pid then
      some (st0, [.warnSelfSelection])
    else if window_title ≠ [] then
      match set_value st0.config (programKey st0.programToSet) (.str window_title) with
      | none => none
      | some cfg1 =>
        let st1 := { st0 with config := cfg1, disk := save_config cfg1 }
        match loadConfig st1 with
        | none => none
        | some st2 => some (st2, [.printSetProgram st0.programToSet window_title pid])
    else
      some (st0, [.printFailGetTitle])
  else
    some (st, [])

/-- `TimerApp.on_click(x, y)` followed by the `window_grabber` round trip: the
handler forwards to `get_window_info` only while waiting for a selection;
`resolved` is the `(window_title, pid)` pair the probe emits (or `("", 0)` on
failure).  When not waiting, the click is ignored entirely. -/
def processClick (_x _y : Int) (resolved : Str × Nat) (st : TimerApp) :
    Option (TimerApp × List Effect) :=
  if st.waitingForWindowSelection then
    set_program_from_info resolved.1 resolved.2 st
  else
    some (st, [])

/-- The core of `ProgramManagerDialog.deleteProgram` for slot `n`: clear the
slot to `''`, save, and reload the parent's configuration. -/
def clearProgram (n : Nat) (st : TimerApp) : Option TimerApp := do
  let cfg1 ← set_value st.config (str "Program" ++ natToStr n) (.str [])
  loadConfig { st with config := cfg1, disk := save_config cfg1 }

/-- A concrete application state as it stands right after startup on a fresh
environment: empty `section`, no programs configured, timer idle at
`00:00:00`. -/
def sampleApp : TimerApp where
  config := ⟨[(str "section", [])]⟩
  disk := .stored [(str "section", [])]
  idleTime := 10
  watched_programs := [[], [], []]
  lastTime := str "00:00:00"
  colorAlert := true
  onColor := str "c2ff57"
  offColor := str "bfbfbf"
  timerActive := false
  h := 0
  m := 0
  s := 0
  own_pid := 7
  waitingForWindowSelection := false
  programToSet := none

/-! ### Concrete states used by the claims and witnesses -/

/-- The parser state `load_config` produces in a fresh environment (missing
`timer.ini`): an empty `section` section. -/
def freshConfig : PyConfig := ⟨[(str "section", [])]⟩

/-- The startup state with an assignment pending for slot 2
(`setProgram(2)` has run). -/
def pendingApp : TimerApp :=
  { sampleApp with waitingForWindowSelection := true, programToSet := some 2 }

/-- The parser state after committing `notepad.exe` into slot 2 of the fresh
store. -/
def committedConfig : PyConfig :=
  ⟨[(str "section", [(str "program2", str "notepad.exe")])]⟩

/-- The application state the slot-2 commit of `notepad.exe` produces from
`pendingApp`: pending flag cleared, configuration mutated and persisted,
watch-list reloaded. -/
def committedApp : TimerApp :=
  { pendingApp with waitingForWindowSelection := false, config := committedConfig, disk := save_config committedConfig, watched_programs := [[], str "notepad.exe", []] }

/-- The parser state after `set('Timeout', 42)` on the fresh store (keys are
lowered by `optionxform`, values stored in string form). -/
def timeoutConfig : PyConfig :=
  ⟨[(str "section", [(str "timeout", str "42")])]⟩

/-- The parser state after clearing slot 2 on the fresh store. -/
def clearedConfig : PyConfig :=
  ⟨[(str "section", [(str "program2", [])])]⟩

/-- The application state `deleteProgram` leaves after clearing slot 2 of the
startup state. -/
def clearedApp : TimerApp :=
  { sampleApp with config := clearedConfig, disk := save_config clearedConfig }

/-! ## Theorems -/

theorem natToCharsAux_eq_digits : ∀ fuel n, n ≤ fuel →
    natToCharsAux fuel n = (Nat.digits 10 n).map digitChar := by
  intro fuel
  induction fuel with
  | zero =>
    intro n hn
    interval_cases n
    simp [natToCharsAux]
  | succ f ih =>
    intro n hn
    cases n with
    | zero => simp [natToCharsAux]
    | succ m =>
      rw [show natToCharsAux (f + 1) (m + 1) =
          digitChar ((m + 1) % 10) :: natToCharsAux f ((m + 1) / 10) from rfl]
      rw [Nat.digits_def' (by norm_num : (1:ℕ) < 10) (Nat.succ_pos m), List.map_cons]
      rw [ih ((m + 1) / 10) (by omega)]

/-- The structural rendering agrees with the `Nat.digits`-based one. -/
theorem natToStr_eq_digits (n : Nat) :
    natToStr n = if n = 0 then ['0'] else ((Nat.digits 10 n).map digitChar).reverse := by
  unfold natToStr
  by_cases hn : n = 0
  · simp [hn]
  · rw [if_neg hn, if_neg hn, natToCharsAux_eq_digits n n (le_refl n)]

/-! ### Round-trip lemmas: `int(str(v)) = v` -/

theorem charDigit_digitChar {d : Nat} (h : d < 10) :
    charDigit (digitChar d) = some d := by
  interval_cases d <;> rfl

theorem digitsToNat_append_digit (l : Str) (c : Char) :
    digitsToNat (l ++ [c]) =
      (digitsToNat l).bind (fun a => (charDigit c).bind (fun d => some (a * 10 + d))) := by
  simp [digitsToNat, List.foldl_append]

/-- Folding the reversed rendering of a little-endian digit list continues an
accumulator in the expected positional way. -/
theorem digitsToNat_render (ds : List Nat) (hds : ∀ d ∈ ds, d < 10) :
    digitsToNat ((ds.map digitChar).reverse) = some (Nat.ofDigits 10 ds) := by
  induction ds with
  | nil => rfl
  | cons d t ih =>
    have hd : d < 10 := hds d (by simp)
    have ht : ∀ x ∈ t, x < 10 := fun x hx => hds x (by simp [hx])
    have hrev : ((d :: t).map digitChar).reverse = (t.map digitChar).reverse ++ [digitChar d] := by
      simp
    rw [hrev, digitsToNat_append_digit, ih ht, charDigit_digitChar hd]
    simp [Nat.ofDigits_cons]
    ring

theorem digitChar_mem_digitCharList (d : Nat) : digitChar d ∈ digitCharList := by
  unfold digitChar
  split <;> decide

theorem mem_natToStr {n : Nat} {c : Char} (h : c ∈ natToStr n) : c ∈ digitCharList := by
  rw [natToStr_eq_digits] at h
  split at h
  · simp at h
    subst h
    decide
  · rw [List.mem_reverse, List.mem_map] at h
    obtain ⟨d, _, rfl⟩ := h
    exact digitChar_mem_digitCharList d

theorem natToStr_ne_nil (n : Nat) : natToStr n ≠ [] := by
  rw [natToStr_eq_digits]
  split
  · simp
  · next h =>
    simp only [ne_eq, List.reverse_eq_nil_iff, List.map_eq_nil_iff]
    exact Nat.digits_ne_nil_iff_ne_zero.mpr h

theorem dropWhile_eq_self_of_none {p : Char → Bool} {l : Str}
    (h : ∀ c ∈ l, p c = false) : l.dropWhile p = l := by
  cases l with
  | nil => rfl
  | cons c cs =>
    rw [List.dropWhile_cons, h c (by simp)]
    simp

theorem stripWS_eq_self {l : Str} (h : ∀ c ∈ l, isPySpace c = false) : stripWS l = l := by
  unfold stripWS
  rw [dropWhile_eq_self_of_none h, dropWhile_eq_self_of_none (fun c hc => h c (List.mem_reverse.mp hc)),
    List.reverse_reverse]

theorem isPySpace_digit {c : Char} (h : c ∈ digitCharList) : isPySpace c = false := by
  fin_cases h <;> decide

theorem pyUInt_natToStr (n : Nat) : pyUInt (natToStr n) = some n := by
  unfold pyUInt
  rw [if_neg (natToStr_ne_nil n)]
  rw [natToStr_eq_digits]
  split
  · subst n
    rfl
  · rw [digitsToNat_render _ (fun d hd => Nat.digits_lt_base (by norm_num) hd),
      Nat.ofDigits_digits]

theorem head_natToStr_not_sign {n : Nat} {c : Char} {ds : Str}
    (h : natToStr n = c :: ds) : ¬c = '+' ∧ ¬c = '-' := by
  have hmem : c ∈ digitCharList := mem_natToStr (by rw [h]; simp)
  fin_cases hmem <;> exact ⟨by decide, by decide⟩

theorem stripWS_natToStr (n : Nat) : stripWS (natToStr n) = natToStr n :=
  stripWS_eq_self (fun _c hc => isPySpace_digit (mem_natToStr hc))

/-- `int(str(n)) = n` for natural numbers. -/
theorem pyInt_natToStr (n : Nat) : pyInt (natToStr n) = some (n : Int) := by
  unfold pyInt
  rw [stripWS_natToStr]
  obtain ⟨c, ds, hcons⟩ : ∃ c ds, natToStr n = c :: ds := by
    cases hn : natToStr n with
    | nil => exact absurd hn (natToStr_ne_nil n)
    | cons c ds => exact ⟨c, ds, rfl⟩
  obtain ⟨h1, h2⟩ := head_natToStr_not_sign hcons
  rw [hcons]
  simp only [pyIntCore, if_neg h1, if_neg h2]
  rw [← hcons, pyUInt_natToStr]
  rfl

/-- `int(str(i)) = i` for every Python integer. -/
theorem pyInt_intToStr (i : Int) : pyInt (intToStr i) = some i := by
  unfold intToStr
  split
  · next hneg =>
    unfold pyInt
    have hstrip : stripWS ('-' :: natToStr i.natAbs) = '-' :: natToStr i.natAbs := by
      refine stripWS_eq_self ?_
      intro c hc
      rcases List.mem_cons.mp hc with rfl | hc
      · decide
      · exact isPySpace_digit (mem_natToStr hc)
    rw [hstrip]
    simp only [pyIntCore, if_neg (by decide : ¬ '-' = '+'), if_pos rfl, pyUInt_natToStr]
    have habs : -(i.natAbs : Int) = i := by omega
    exact congrArg some habs
  · next hpos =>
    rw [pyInt_natToStr]
    congr 1
    omega

/-- The general `get_value` at a string default is the total string accessor:
that branch falls back on a missing key and never raises. -/
theorem get_value_str_spec (cfg : PyConfig) (key d : Str) :
    get_value cfg key (.str d) = some (.str (get_value_str cfg key d)) := by
  unfold get_value get_value_str pyIsInstanceBool pyIsInstanceInt
  cases configGet cfg (str "section") (lowerStr key) <;> rfl

/-! ### Association-list and section lemmas -/

theorem getAssoc_updAssoc_self (key val : Str) (l : Options) :
    getAssoc key (updAssoc key val l) = some val := by
  induction l with
  | nil => simp [updAssoc, getAssoc]
  | cons p rest ih =>
    obtain ⟨k, v⟩ := p
    by_cases hk : k = key
    · simp [updAssoc, hk, getAssoc]
    · simp [updAssoc, hk, getAssoc, ih]

theorem getAssoc_updAssoc_other {key key' : Str} (h : key' ≠ key) (val : Str) (l : Options) :
    getAssoc key' (updAssoc key val l) = getAssoc key' l := by
  induction l with
  | nil => simp [updAssoc, getAssoc, h, Ne.symm h]
  | cons p rest ih =>
    obtain ⟨k, v⟩ := p
    by_cases hk : k = key
    · subst hk
      simp [updAssoc, getAssoc, h, Ne.symm h]
    · by_cases hk' : k = key'
      · subst hk'
        simp [updAssoc, hk, getAssoc]
      · simp [updAssoc, hk, getAssoc, hk', ih]

/-- `updSections` only rewrites the (first) section named `sect`, leaving the
section structure otherwise intact. -/
theorem getSec_updSections (sect key val s : Str) (l : Sections) :
    getSec (updSections sect key val l) s =
      (getSec l s).map (fun opts => if s = sect then updAssoc key val opts else opts) := by
  induction l with
  | nil => rfl
  | cons p rest ih =>
    obtain ⟨n, opts⟩ := p
    by_cases hn : n = sect
    · subst hn
      by_cases hs : n = s
      · subst hs
        simp [updSections, getSec]
      · have hsn : ¬s = n := fun hcontra => hs hcontra.symm
        simp only [updSections, if_pos rfl, getSec, if_neg hs]
        cases getSec rest s with
        | none => rfl
        | some o => simp [hsn]
    · by_cases hs : n = s
      · subst hs
        have hns : ¬n = sect := hn
        simp [updSections, getSec, hn, hns]
      · simp [updSections, getSec, hn, hs, ih]

theorem configGet_configSet_self {cfg cfg' : PyConfig} {sect key val : Str}
    (h : configSet cfg sect key val = some cfg') :
    configGet cfg' sect key = some val := by
  unfold configSet at h
  split at h
  · next hs =>
    cases h
    unfold has_section at hs
    unfold configGet
    rw [getSec_updSections]
    obtain ⟨opts, hopts⟩ := Option.isSome_iff_exists.mp hs
    simp [hopts, getAssoc_updAssoc_self]
  · exact absurd h (by simp)

theorem configGet_configSet_other {cfg cfg' : PyConfig} {sect key key' val : Str}
    (hne : key' ≠ key) (h : configSet cfg sect key val = some cfg') :
    configGet cfg' sect key' = configGet cfg sect key' := by
  unfold configSet at h
  split at h
  · cases h
    unfold configGet
    rw [getSec_updSections]
    cases hsec : getSec cfg.sections sect with
    | none => simp [hsec]
    | some opts => simp [hsec, getAssoc_updAssoc_other hne]
  · exact absurd h (by simp)

theorem has_section_configSet {cfg cfg' : PyConfig} {sect key val : Str}
    (h : configSet cfg sect key val = some cfg') (s : Str) :
    has_section cfg' s = has_section cfg s := by
  unfold configSet at h
  split at h
  · cases h
    unfold has_section
    rw [getSec_updSections]
    cases getSec cfg.sections s <;> rfl
  · exact absurd h (by simp)

/-! ### Frame lemmas for the tick machinery -/

theorem incrementTime_frame (st : TimerApp) :
    (incrementTime st).watched_programs = st.watched_programs ∧
    (incrementTime st).timerActive = st.timerActive ∧
    (incrementTime st).colorAlert = st.colorAlert := by
  simp only [incrementTime]
  split_ifs <;> exact ⟨rfl, rfl, rfl⟩

theorem checkActiveWindow_timerActive (w : Str) (st : TimerApp) :
    (checkActiveWindow w st).1.timerActive = decide (w ∈ st.watched_programs) := by
  unfold checkActiveWindow activateTimer deactivateTimer
  by_cases hmem : w ∈ st.watched_programs <;>
    cases hact : st.timerActive <;> simp [hmem, hact]

theorem checkActiveWindow_frame (w : Str) (st : TimerApp) :
    (checkActiveWindow w st).1.watched_programs = st.watched_programs ∧
    (checkActiveWindow w st).1.colorAlert = st.colorAlert ∧
    (checkActiveWindow w st).1.h = st.h ∧
    (checkActiveWindow w st).1.m = st.m ∧
    (checkActiveWindow w st).1.s = st.s := by
  unfold checkActiveWindow activateTimer deactivateTimer
  split_ifs <;> exact ⟨rfl, rfl, rfl, rfl, rfl⟩

theorem updateTimer_timerActive (w : Str) (st : TimerApp) :
    (updateTimer w st).1.timerActive = decide (w ∈ st.watched_programs) := by
  unfold updateTimer
  by_cases hact : st.timerActive
  · rw [if_pos hact, checkActiveWindow_timerActive, (incrementTime_frame st).1]
  · rw [if_neg hact, checkActiveWindow_timerActive]

theorem updateTimer_watched (w : Str) (st : TimerApp) :
    (updateTimer w st).1.watched_programs = st.watched_programs := by
  unfold updateTimer
  by_cases hact : st.timerActive
  · rw [if_pos hact, (checkActiveWindow_frame _ _).1, (incrementTime_frame st).1]
  · rw [if_neg hact, (checkActiveWindow_frame _ _).1]

theorem updateTimer_colorAlert (w : Str) (st : TimerApp) :
    (updateTimer w st).1.colorAlert = st.colorAlert := by
  unfold updateTimer
  by_cases hact : st.timerActive
  · rw [if_pos hact, (checkActiveWindow_frame _ _).2.1, (incrementTime_frame st).2.2]
  · rw [if_neg hact, (checkActiveWindow_frame _ _).2.1]

theorem elapsed_checkActiveWindow (w : Str) (st : TimerApp) :
    elapsed (checkActiveWindow w st).1 = elapsed st := by
  unfold elapsed
  rw [(checkActiveWindow_frame w st).2.2.1, (checkActiveWindow_frame w st).2.2.2.1,
    (checkActiveWindow_frame w st).2.2.2.2]

theorem incrementTime_elapsed (st : TimerApp) (hs : st.s < 60) (hm : st.m < 60) :
    elapsed (incrementTime st) = elapsed st + 1 ∧
    (incrementTime st).s < 60 ∧ (incrementTime st).m < 60 := by
  simp only [incrementTime, elapsed]
  split_ifs with h1 h2 <;> refine ⟨?_, ?_, ?_⟩ <;> simp <;> omega

theorem checkActiveWindow_sm (w : Str) (st : TimerApp) :
    (checkActiveWindow w st).1.s = st.s ∧ (checkActiveWindow w st).1.m = st.m :=
  ⟨(checkActiveWindow_frame w st).2.2.2.2, (checkActiveWindow_frame w st).2.2.2.1⟩

/-- One tick moves `elapsed` by exactly one second when running and zero when
idle, and preserves the representation invariant `s < 60 ∧ m < 60`. -/
theorem updateTimer_elapsed (w : Str) (st : TimerApp) (hs : st.s < 60) (hm : st.m < 60) :
    elapsed (updateTimer w st).1 = elapsed st + (if st.timerActive then 1 else 0) ∧
    (updateTimer w st).1.s < 60 ∧ (updateTimer w st).1.m < 60 := by
  unfold updateTimer
  by_cases hact : st.timerActive
  · rw [if_pos hact, if_pos hact, elapsed_checkActiveWindow,
      (checkActiveWindow_sm _ _).1, (checkActiveWindow_sm _ _).2]
    have hinc := incrementTime_elapsed st hs hm
    exact ⟨by rw [hinc.1], hinc.2.1, hinc.2.2⟩
  · rw [if_neg hact, if_neg hact, elapsed_checkActiveWindow,
      (checkActiveWindow_sm _ _).1, (checkActiveWindow_sm _ _).2]
    exact ⟨by omega, hs, hm⟩

theorem runTicks_elapsed_mono (ws : List Str) :
    ∀ st : TimerApp, st.s < 60 → st.m < 60 →
      elapsed st ≤ elapsed (runTicks ws st).1 ∧
      (runTicks ws st).1.s < 60 ∧ (runTicks ws st).1.m < 60 := by
  induction ws with
  | nil => exact fun st hs hm => ⟨le_refl _, hs, hm⟩
  | cons w rest ih =>
    intro st hs hm
    have h1 := updateTimer_elapsed w st hs hm
    have h2 := ih (updateTimer w st).1 h1.2.1 h1.2.2
    unfold runTicks
    refine ⟨?_, h2.2.1, h2.2.2⟩
    have : elapsed st ≤ elapsed (updateTimer w st).1 := by
      rw [h1.1]
      split_ifs <;> omega
    exact le_trans this h2.1

/-! ### Event lemmas for the transition notifications -/

/-- When the focus check does not change the state, `checkActiveWindow` is a
complete no-op: same state, no side effect (the guards inside
`activateTimer`/`deactivateTimer`). -/
theorem checkActiveWindow_noop (w : Str) (st : TimerApp)
    (h : st.timerActive = decide (w ∈ st.watched_programs)) :
    checkActiveWindow w st = (st, []) := by
  unfold checkActiveWindow activateTimer deactivateTimer
  by_cases hmem : w ∈ st.watched_programs
  · have hact : st.timerActive = true := by rw [h]; exact decide_eq_true hmem
    rw [if_pos hmem, if_pos hact]
  · have hact : st.timerActive = false := by rw [h, decide_eq_false hmem]
    rw [if_neg hmem, if_neg (by rw [hact]; simp)]

theorem updateTimer_events_noop (w : Str) (st : TimerApp)
    (h : st.timerActive = decide (w ∈ st.watched_programs)) :
    (updateTimer w st).2 = [] := by
  unfold updateTimer
  by_cases hact : st.timerActive
  · rw [if_pos hact, checkActiveWindow_noop w (incrementTime st)
      (by rw [(incrementTime_frame st).2.1, (incrementTime_frame st).1]; exact h)]
  · rw [if_neg hact, checkActiveWindow_noop w st h]

theorem updateTimer_events_len (w : Str) (st : TimerApp) :
    (updateTimer w st).2.length ≤ 1 := by
  simp only [updateTimer, checkActiveWindow, activateTimer, deactivateTimer]
  split_ifs <;> simp

/-- With colour alerts enabled, a focus check emits a side effect exactly when
it changes the Running/Idle state. -/
theorem checkActiveWindow_events_iff (w : Str) (st : TimerApp) (hca : st.colorAlert = true) :
    ((checkActiveWindow w st).2 ≠ [] ↔ (checkActiveWindow w st).1.timerActive ≠ st.timerActive) := by
  unfold checkActiveWindow activateTimer deactivateTimer
  by_cases hmem : w ∈ st.watched_programs <;> cases hact : st.timerActive <;>
    simp [hmem, hact, hca]

theorem updateTimer_events_iff (w : Str) (st : TimerApp) (hca : st.colorAlert = true) :
    ((updateTimer w st).2 ≠ [] ↔ (updateTimer w st).1.timerActive ≠ st.timerActive) := by
  unfold updateTimer
  by_cases hact : st.timerActive
  · rw [if_pos hact]
    have h1 := checkActiveWindow_events_iff w (incrementTime st)
      (by rw [(incrementTime_frame st).2.2]; exact hca)
    rw [(incrementTime_frame st).2.1] at h1
    exact h1
  · rw [if_neg hact]
    exact checkActiveWindow_events_iff w st hca

/-- A run of ticks whose focus checks all agree with the current state emits
no events at all. -/
theorem runTicks_events_nil (b : Bool) (ws : List Str) :
    ∀ st : TimerApp, (∀ w ∈ ws, decide (w ∈ st.watched_programs) = b) →
      st.timerActive = b → (runTicks ws st).2 = [] := by
  induction ws with
  | nil => intro st _ _; rfl
  | cons w rest ih =>
    intro st hall hact
    have hw : decide (w ∈ st.watched_programs) = b := hall w (by simp)
    have hnoop : (updateTimer w st).2 = [] :=
      updateTimer_events_noop w st (by rw [hact, hw])
    have hact' : (updateTimer w st).1.timerActive = b := by
      rw [updateTimer_timerActive, hw]
    have hall' : ∀ x ∈ rest, decide (x ∈ (updateTimer w st).1.watched_programs) = b := by
      intro x hx
      rw [updateTimer_watched]
      exact hall x (by simp [hx])
    simp only [runTicks, hnoop, ih _ hall' hact', List.append_nil]

/-- In a run whose focus checks all resolve the same way, every event is
emitted by the first tick. -/
theorem runTicks_events_head (b : Bool) (w : Str) (rest : List Str) (st : TimerApp)
    (hallw : decide (w ∈ st.watched_programs) = b)
    (hallr : ∀ x ∈ rest, decide (x ∈ st.watched_programs) = b) :
    (runTicks (w :: rest) st).2 = (updateTimer w st).2 := by
  have hact' : (updateTimer w st).1.timerActive = b := by
    rw [updateTimer_timerActive, hallw]
  have hall' : ∀ x ∈ rest, decide (x ∈ (updateTimer w st).1.watched_programs) = b := by
    intro x hx
    rw [updateTimer_watched]
    exact hallr x hx
  have htail := runTicks_events_nil b rest (updateTimer w st).1 hall' hact'
  simp only [runTicks, htail, List.append_nil]

theorem load_config_missing :
    load_config .missing = .ok (freshConfig, .stored freshConfig.sections) := rfl

theorem load_config_corrupt : load_config .corrupt = .error () := rfl

/-- Re-loading a saved parser state whose `section` exists gives back exactly
that state (the abstract file codec round trip). -/
theorem load_config_stored (cfg : PyConfig) (hs : has_section cfg (str "section") = true) :
    load_config (save_config cfg) = .ok (cfg, save_config cfg) := by
  unfold load_config save_config readIni
  simp [hs]

/-- On the fresh store every key resolves to the caller-supplied default. -/
theorem get_value_fresh (key : Str) (d : PyVal) :
    get_value freshConfig key d = some d := by
  have hnone : configGet freshConfig (str "section") (lowerStr key) = none := by
    unfold configGet freshConfig getSec
    simp [getAssoc]
  cases d <;> simp [get_value, pyIsInstanceBool, pyIsInstanceInt, hnone]

/-- The resolved value's runtime type always matches the default's runtime
type (bool checked before int before string). -/
theorem get_value_type (cfg : PyConfig) (key : Str) (d r : PyVal)
    (h : get_value cfg key d = some r) : pvType r = pvType d := by
  unfold get_value at h
  cases d with
  | bool b =>
    simp only [pyIsInstanceBool, if_pos] at h
    cases hc : configGet cfg (str "section") (lowerStr key) with
    | none =>
      rw [hc] at h
      cases h
      rfl
    | some v =>
      rw [hc] at h
      dsimp only at h
      cases hb : pyBoolParse v with
      | none => rw [hb] at h; cases h
      | some bb =>
        rw [hb] at h
        cases h
        rfl
  | int i =>
    simp only [pyIsInstanceBool, pyIsInstanceInt, Bool.false_eq_true, if_false, if_pos] at h
    cases hc : configGet cfg (str "section") (lowerStr key) with
    | none =>
      rw [hc] at h
      cases h
      rfl
    | some v =>
      rw [hc] at h
      dsimp only at h
      cases hi : pyInt v with
      | none => rw [hi] at h; cases h
      | some iv =>
        rw [hi] at h
        cases h
        rfl
  | str s =>
    simp only [pyIsInstanceBool, pyIsInstanceInt, Bool.false_eq_true, if_false] at h
    cases hc : configGet cfg (str "section") (lowerStr key) with
    | none =>
      rw [hc] at h
      cases h
      rfl
    | some v =>
      rw [hc] at h
      cases h
      rfl

/-- After `set_value key (int v)`, the typed read with an int default
recovers `v` (the stored string is `str(v)` and `getint` applies `int`). -/
theorem get_value_after_set_int {cfg cfg' : PyConfig} {key : Str} (v d : Int)
    (hset : set_value cfg key (.int v) = some cfg') :
    get_value cfg' key (.int d) = some (.int v) := by
  have hget : configGet cfg' (str "section") (lowerStr key) = some (pyStr (.int v)) :=
    configGet_configSet_self hset
  unfold get_value
  simp only [pyIsInstanceBool, pyIsInstanceInt, Bool.false_eq_true, if_false, if_pos]
  rw [hget]
  show (pyInt (intToStr v)).map PyVal.int = some (.int v)
  rw [pyInt_intToStr]
  rfl

theorem set_value_of_has_section {cfg : PyConfig} (key : Str) (v : PyVal)
    (hs : has_section cfg (str "section") = true) :
    ∃ cfg', set_value cfg key v = some cfg' := by
  unfold set_value configSet
  rw [if_pos hs]
  exact ⟨_, rfl⟩

/-- What `loadConfig` recomputes and what it leaves untouched. -/
theorem loadConfig_spec (st st' : TimerApp) (h : loadConfig st = some st') :
    st'.config = st.config ∧ st'.disk = st.disk ∧
    st'.watched_programs = get_all_programs st.config ∧
    st'.lastTime = get_value_str st.config (str "LastTime") (str "00:00:00") ∧
    st'.timerActive = st.timerActive ∧ st'.h = st.h ∧ st'.m = st.m ∧ st'.s = st.s ∧
    st'.own_pid = st.own_pid ∧
    st'.waitingForWindowSelection = st.waitingForWindowSelection ∧
    st'.programToSet = st.programToSet := by
  unfold loadConfig at h
  cases h1 : get_value st.config (str "Timeout") (.int 10) with
  | none => rw [h1] at h; simp at h
  | some idle =>
    rw [h1] at h
    cases idle with
    | bool b => simp at h
    | str s3 => simp at h
    | int n =>
      cases h2 : get_value st.config (str "ColorAlert") (.bool true) with
      | none => rw [h2] at h; simp at h
      | some ca =>
        rw [h2] at h
        cases ca with
        | int i2 => simp at h
        | str s4 => simp at h
        | bool b2 =>
          simp only [Option.bind_eq_bind, Option.some_bind, Option.pure_def,
            Option.some.injEq] at h
          subst h
          exact ⟨rfl, rfl, rfl, rfl, rfl, rfl, rfl, rfl, rfl, rfl, rfl⟩

/-! ## The claims -/

/-- Claim C1 (code bug): the specification requires the empty string returned
by a failing or unsupported-platform sampler to force the Idle state and never
to match any watch-list entry; but on the startup state of a fresh environment
(all three watch-list slots unset, i.e. `''`), `checkActiveWindow` evaluates
`'' in ['', '', '']`, which is true in Python, and therefore *activates* the
timer: the state after the tick is Running, not Idle. -/
theorem c1_empty_sample_activates_on_unset_slot :
    ([] : Str) ∈ sampleApp.watched_programs ∧
    (checkActiveWindow [] sampleApp).1.timerActive = true ∧
    (updateTimer [] sampleApp).1.timerActive = true ∧
    sampleApp.timerActive = false := by
  refine ⟨by decide, ?_, ?_, rfl⟩
  · rw [checkActiveWindow_timerActive]
    decide
  · rw [updateTimer_timerActive]
    decide

/-- Claim C2: over any sequence of ticks, `elapsed` (the `(h, m, s)` triple
read as seconds) is non-decreasing, and a single tick adds exactly one second
precisely when the state is Running when the tick fires (the carry wraps
seconds and minutes at 60, hours unbounded); an Idle tick leaves it unchanged.
Stated on any state satisfying the representation invariant `s < 60 ∧ m < 60`
(established at startup where `h = m = s = 0` and preserved by every tick). -/
theorem c2_elapsed_increments_iff_running (st : TimerApp) (hs : st.s < 60) (hm : st.m < 60) :
    (∀ w, elapsed (updateTimer w st).1 = elapsed st + (if st.timerActive then 1 else 0) ∧
          (updateTimer w st).1.s < 60 ∧ (updateTimer w st).1.m < 60) ∧
    (∀ ws, elapsed st ≤ elapsed (runTicks ws st).1) :=
  ⟨fun w => updateTimer_elapsed w st hs hm,
   fun ws => (runTicks_elapsed_mono ws st hs hm).1⟩

/-- Witness for C2 at the startup state: an idle tick leaves `elapsed` at the
prescribed value and a run of ticks never decreases it. -/
theorem c2_witness :
    elapsed (updateTimer (str "x") sampleApp).1 =
      elapsed sampleApp + (if sampleApp.timerActive then 1 else 0) ∧
    elapsed sampleApp ≤ elapsed (runTicks [str "a", str "b"] sampleApp).1 :=
  ⟨((c2_elapsed_increments_iff_running sampleApp (by decide) (by decide)).1 (str "x")).1,
   (c2_elapsed_increments_iff_running sampleApp (by decide) (by decide)).2 [str "a", str "b"]⟩

/-- Claim C3: with colour alerts enabled, the Idle→Running / Running→Idle
background-colour side effect fires exactly when a tick actually changes the
state, and over any run of consecutive ticks whose focus checks all resolve
the same way (all matching, or all not matching) at most one transition event
is produced, emitted by the first tick of the run — exactly one when the run
starts in the opposite state. -/
theorem c3_transition_events_once (st : TimerApp) (b : Bool) (ws : List Str)
    (hca : st.colorAlert = true)
    (hall : ∀ w ∈ ws, decide (w ∈ st.watched_programs) = b) :
    (∀ w, ((updateTimer w st).2 ≠ [] ↔ (updateTimer w st).1.timerActive ≠ st.timerActive)) ∧
    (runTicks ws st).2.length ≤ 1 ∧
    (∀ w rest, ws = w :: rest → (runTicks ws st).2 = (updateTimer w st).2) ∧
    (ws ≠ [] → st.timerActive ≠ b → (runTicks ws st).2.length = 1) := by
  refine ⟨fun w => updateTimer_events_iff w st hca, ?_, ?_, ?_⟩
  · cases ws with
    | nil => simp [runTicks]
    | cons w rest =>
      rw [runTicks_events_head b w rest st (hall w (by simp))
        (fun x hx => hall x (by simp [hx]))]
      exact updateTimer_events_len w st
  · intro w rest hws
    subst hws
    exact runTicks_events_head b w rest st (hall w (by simp))
      (fun x hx => hall x (by simp [hx]))
  · intro hne hchange
    obtain ⟨w, rest, rfl⟩ : ∃ w rest, ws = w :: rest := by
      cases ws with
      | nil => exact absurd rfl hne
      | cons w rest => exact ⟨w, rest, rfl⟩
    rw [runTicks_events_head b w rest st (hall w (by simp))
      (fun x hx => hall x (by simp [hx]))]
    have hlen := updateTimer_events_len w st
    have hne2 : (updateTimer w st).2 ≠ [] := by
      rw [updateTimer_events_iff w st hca, updateTimer_timerActive, hall w (by simp)]
      exact Ne.symm hchange
    have hpos : 0 < (updateTimer w st).2.length := List.length_pos.mpr hne2
    omega

/-- Witness for C3: five consecutive ticks that all match a freshly configured
watch-list entry, starting from Idle, produce exactly one transition event. -/
theorem c3_witness :
    (runTicks [str "a", str "a", str "a", str "a", str "a"]
      { sampleApp with watched_programs := [str "a", str "x", str "y"] }).2.length = 1 :=
  (c3_transition_events_once { sampleApp with watched_programs := [str "a", str "x", str "y"] }
      true [str "a", str "a", str "a", str "a", str "a"] rfl (by decide)).2.2.2
    (by simp) (by decide)

/-- Claim C4: `resumePreviousTime` on a stored string of exactly three
colon-separated integer segments replaces `h`, `m`, `s` with exactly the
parsed values — every other field, in particular the Running/Idle flag, is
unchanged — regardless of the prior elapsed value; on a malformed string
(wrong segment count or an unparseable segment) it raises before assigning,
so the failure is caller-visible and the elapsed value is untouched. -/
theorem c4_resume_sets_exactly_or_rejects (st : TimerApp) :
    (∀ a b c hv mv sv, pySplit ':' st.lastTime = [a, b, c] →
        pyInt a = some hv → pyInt b = some mv → pyInt c = some sv →
        resumePreviousTime st = some { st with h := hv, m := mv, s := sv }) ∧
    ((¬∃ a b c, pySplit ':' st.lastTime = [a, b, c] ∧
        (pyInt a).isSome = true ∧ (pyInt b).isSome = true ∧ (pyInt c).isSome = true) →
      resumePreviousTime st = none) := by
  constructor
  · intro a b c hv mv sv hsplit ha hb hc
    unfold resumePreviousTime
    rw [hsplit]
    simp only [ha, hb, hc]
  · intro hmal
    unfold resumePreviousTime
    cases hsplit : pySplit ':' st.lastTime with
    | nil => rfl
    | cons a t1 =>
      cases t1 with
      | nil => rfl
      | cons b t2 =>
        cases t2 with
        | nil => rfl
        | cons c t3 =>
          cases t3 with
          | cons d t4 => rfl
          | nil =>
            cases ha : pyInt a with
            | none => simp only [ha]
            | some hv =>
              cases hb : pyInt b with
              | none => simp only [ha, hb]
              | some mv =>
                cases hc : pyInt c with
                | none => simp only [ha, hb, hc]
                | some sv =>
                  exact absurd ⟨a, b, c, hsplit, by rw [ha]; rfl, by rw [hb]; rfl,
                    by rw [hc]; rfl⟩ hmal

/-- Witness for C4: resuming from `"01:02:03"` sets the time to exactly
1h 2m 3s without touching the Running/Idle flag, and resuming from `"bad"`
is rejected. -/
theorem c4_witness :
    resumePreviousTime { sampleApp with lastTime := str "01:02:03" } =
      some { sampleApp with lastTime := str "01:02:03", h := 1, m := 2, s := 3 } ∧
    resumePreviousTime { sampleApp with lastTime := str "bad" } = none := by
  constructor
  · exact (c4_resume_sets_exactly_or_rejects _).1 (str "01") (str "02") (str "03") 1 2 3
      (by decide) (by decide) (by decide) (by decide)
  · refine (c4_resume_sets_exactly_or_rejects _).2 ?_
    rintro ⟨a, b, c, heq, -⟩
    have hval : pySplit ':' ({ sampleApp with lastTime := str "bad" } : TimerApp).lastTime =
        [str "bad"] := by decide
    rw [hval] at heq
    simp at heq

/-- Claim C9: `resumePreviousTime` performs no range validation: any stored
string of exactly three colon-separated integer segments is accepted and the
parsed integers are assigned verbatim — including values of 60 or more, or
negative values, for minutes and seconds — so the representation invariant
`0 ≤ m < 60 ∧ 0 ≤ s < 60` need not hold after a resume. -/
theorem c9_resume_no_range_validation (st : TimerApp) (a b c : Str) (hv mv sv : Int)
    (hsplit : pySplit ':' st.lastTime = [a, b, c])
    (ha : pyInt a = some hv) (hb : pyInt b = some mv) (hc : pyInt c = some sv)
    (hbad : 60 ≤ mv ∨ mv < 0 ∨ 60 ≤ sv ∨ sv < 0) :
    resumePreviousTime st = some { st with h := hv, m := mv, s := sv } ∧
    ¬(0 ≤ mv ∧ mv < 60 ∧ 0 ≤ sv ∧ sv < 60) :=
  ⟨(c4_resume_sets_exactly_or_rejects st).1 a b c hv mv sv hsplit ha hb hc, by omega⟩

/-- Witness for C9: the stored string `"99:75:-3"` resumes to 99 hours,
75 minutes, −3 seconds, violating the invariant. -/
theorem c9_witness :
    resumePreviousTime { sampleApp with lastTime := str "99:75:-3" } =
      some { sampleApp with lastTime := str "99:75:-3", h := 99, m := 75, s := -3 } ∧
    ¬(0 ≤ (75 : Int) ∧ (75 : Int) < 60 ∧ 0 ≤ (-3 : Int) ∧ (-3 : Int) < 60) :=
  c9_resume_no_range_validation _ (str "99") (str "75") (str "-3") 99 75 (-3)
    (by decide) (by decide) (by decide) (by decide) (by left; decide)

/-- Claim C6: configuration round trip.  On any parser state whose `section`
exists (every state `load_config` can produce): `set(key, v)` for an integer
`v` followed by `save()` and a fresh `load()` yields `get(key, d) = v` for an
int default `d`, and the value is stored normalized to its string form
`str(v)`; a key never set resolves to the caller-supplied default (stated on
the freshly initialized store); the resolved value's runtime type always
matches the default's runtime type, with bool tested before int (a boolean
default satisfies `isinstance(_, int)` too, since Python's `bool` is a
subclass of `int`, and still dispatches to `getboolean`). -/
theorem c6_config_round_trip (cfg : PyConfig) (key : Str) (v d : Int)
    (hsec : has_section cfg (str "section") = true) :
    (∃ cfg', set_value cfg key (.int v) = some cfg' ∧
       load_config (save_config cfg') = .ok (cfg', save_config cfg') ∧
       get_value cfg' key (.int d) = some (.int v) ∧
       configGet cfg' (str "section") (lowerStr key) = some (pyStr (.int v))) ∧
    (∀ k dflt, get_value freshConfig k dflt = some dflt) ∧
    (∀ c k dflt r, get_value c k dflt = some r → pvType r = pvType dflt) ∧
    (∀ bdef : Bool, pyIsInstanceInt (.bool bdef) = true ∧ pyIsInstanceBool (.bool bdef) = true ∧
       (∀ c k r, get_value c k (.bool bdef) = some r → pvType r = PyType.bool)) := by
  refine ⟨?_, get_value_fresh, get_value_type, ?_⟩
  · obtain ⟨cfg', hset⟩ := set_value_of_has_section key (.int v) hsec
    have hsec' : has_section cfg' (str "section") = true := by
      rw [has_section_configSet hset]
      exact hsec
    exact ⟨cfg', hset, load_config_stored cfg' hsec',
      get_value_after_set_int v d hset, configGet_configSet_self hset⟩
  · intro bdef
    exact ⟨rfl, rfl, fun c k r hr => get_value_type c k (.bool bdef) r hr⟩

/-- Witness for C6: `set('Timeout', 42); save()`, then a fresh `load()` and
`get('Timeout', 10)`, on the freshly initialized store. -/
theorem c6_witness :
    set_value freshConfig (str "Timeout") (PyVal.int 42) = some timeoutConfig ∧
    load_config (save_config timeoutConfig) =
      Except.ok (timeoutConfig, save_config timeoutConfig) ∧
    get_value timeoutConfig (str "Timeout") (PyVal.int 10) = some (PyVal.int 42) ∧
    configGet timeoutConfig (str "section") (lowerStr (str "Timeout")) =
      some (pyStr (PyVal.int 42)) := by
  have hset : set_value freshConfig (str "Timeout") (PyVal.int 42) = some timeoutConfig := by
    decide
  obtain ⟨cfg', h1, h2, h3, h4⟩ :=
    (c6_config_round_trip freshConfig (str "Timeout") 42 10 (by decide)).1
  have hcfg : cfg' = timeoutConfig := Option.some.inj (h1.symm.trans hset)
  subst hcfg
  exact ⟨hset, h2, h3, h4⟩

/-- Claim C7 counterexample: the claim says a missing *or corrupt* backing
file is never fatal, but `ConfigParser.read` raises on unparseable content
(e.g. `MissingSectionHeaderError` for a file whose first meaningful line is
not a section header) and `load_config` does not catch it: on a corrupt
`timer.ini`, `load_config` propagates the parse error — which terminates the
process, since no caller up through `ConfigManager.__init__`,
`TimerApp.__init__` and `main` handles it. -/
theorem c7_counterexample : load_config DiskFile.corrupt = Except.error () := rfl

/-- Claim C7 (amended): a *missing* backing file is never fatal — `load()`
treats it as "no values present", creates the logical `section` and
immediately saves, so a fresh environment materializes the file, and every
subsequent `get(key, default)` falls back to its default; a *corrupt* backing
file, however, makes `load()` raise an uncaught parse error. -/
theorem c7_missing_nonfatal_corrupt_fatal :
    load_config DiskFile.missing = .ok (freshConfig, .stored freshConfig.sections) ∧
    has_section freshConfig (str "section") = true ∧
    (∀ key d, get_value freshConfig key d = some d) ∧
    load_config DiskFile.corrupt = Except.error () :=
  ⟨load_config_missing, rfl, get_value_fresh, rfl⟩

/-- Claim C5: resolving a pending assignment for slot `N` from a click that
resolved to `(title, pid)`.  If `pid` is the application's own process id, the
watch-list and configuration are untouched and a self-selection warning is
produced; if `pid` differs and `title` is non-empty, slot `N` is committed via
`set_value`, persisted via `save_config`, and immediately visible through the
reloaded watch-list accessor; if `title` is empty, nothing is mutated and a
failure is notified.  In all three cases the pending flag is cleared. -/
theorem c5_assignment_commit_or_reject (st : TimerApp) (N : Nat) (title : Str) (pid : Nat)
    (hw : st.waitingForWindowSelection = true)
    (hslot : st.programToSet = some N)
    (hN : N = 1 ∨ N = 2 ∨ N = 3) :
    (pid = st.own_pid →
       set_program_from_info title pid st =
         some ({ st with waitingForWindowSelection := false }, [.warnSelfSelection])) ∧
    (pid ≠ st.own_pid → title ≠ [] →
       ∀ cfg1 st2, set_value st.config (programKey (some N)) (.str title) = some cfg1 →
         loadConfig { st with waitingForWindowSelection := false, config := cfg1,
                              disk := save_config cfg1 } = some st2 →
         set_program_from_info title pid st =
           some (st2, [.printSetProgram (some N) title pid]) ∧
         st2.watched_programs.get? (N - 1) = some title ∧
         st2.waitingForWindowSelection = false ∧
         st2.config = cfg1 ∧ st2.disk = save_config cfg1) ∧
    (pid ≠ st.own_pid → title = [] →
       set_program_from_info title pid st =
         some ({ st with waitingForWindowSelection := false }, [.printFailGetTitle])) := by
  refine ⟨?_, ?_, ?_⟩
  · intro hpid
    unfold set_program_from_info
    rw [hw]
    simp only [if_true, if_pos hpid]
  · intro hpid htitle cfg1 st2 hset hload
    have hmain : set_program_from_info title pid st =
        some (st2, [.printSetProgram (some N) title pid]) := by
      unfold set_program_from_info
      rw [hw]
      simp only [if_true, if_neg hpid, if_pos htitle]
      rw [hslot] at hload ⊢
      rw [hset]
      dsimp only
      rw [hload]
    refine ⟨hmain, ?_, ?_, ?_, ?_⟩
    · have hspec := loadConfig_spec _ _ hload
      have hwatched : st2.watched_programs = get_all_programs cfg1 := hspec.2.2.1
      unfold set_value at hset
      have hget := configGet_configSet_self hset
      rw [hwatched]
      rcases hN with rfl | rfl | rfl
      · rw [show lowerStr (programKey (some 1)) = str "program1" from by decide] at hget
        show some (get_value_str cfg1 (str "Program1") []) = some title
        unfold get_value_str
        rw [show lowerStr (str "Program1") = str "program1" from by decide, hget]
        rfl
      · rw [show lowerStr (programKey (some 2)) = str "program2" from by decide] at hget
        show some (get_value_str cfg1 (str "Program2") []) = some title
        unfold get_value_str
        rw [show lowerStr (str "Program2") = str "program2" from by decide, hget]
        rfl
      · rw [show lowerStr (programKey (some 3)) = str "program3" from by decide] at hget
        show some (get_value_str cfg1 (str "Program3") []) = some title
        unfold get_value_str
        rw [show lowerStr (str "Program3") = str "program3" from by decide, hget]
        rfl
    · exact (loadConfig_spec _ _ hload).2.2.2.2.2.2.2.2.2.1
    · exact (loadConfig_spec _ _ hload).1
    · exact (loadConfig_spec _ _ hload).2.1
  · intro hpid htitle
    unfold set_program_from_info
    rw [hw]
    simp only [if_true, if_neg hpid, htitle]
    simp

/-- Witness for C5 on the pending startup state (own pid 7, target slot 2):
an own-pid click is rejected, a click resolving to `("notepad.exe", 12345)`
commits slot 2 and makes it visible through the accessor, and an empty title
notifies failure. -/
theorem c5_witness :
    set_program_from_info (str "x") 7 pendingApp =
      some ({ pendingApp with waitingForWindowSelection := false }, [.warnSelfSelection]) ∧
    set_program_from_info (str "notepad.exe") 12345 pendingApp =
      some (committedApp, [.printSetProgram (some 2) (str "notepad.exe") 12345]) ∧
    committedApp.watched_programs.get? 1 = some (str "notepad.exe") ∧
    committedApp.waitingForWindowSelection = false ∧
    set_program_from_info [] 12345 pendingApp =
      some ({ pendingApp with waitingForWindowSelection := false }, [.printFailGetTitle]) := by
  have hthm := fun title pid => c5_assignment_commit_or_reject pendingApp 2 title pid rfl rfl
    (Or.inr (Or.inl rfl))
  have hset : set_value pendingApp.config (programKey (some 2)) (.str (str "notepad.exe")) =
      some committedConfig := by decide
  have hload : loadConfig { pendingApp with waitingForWindowSelection := false, config := committedConfig, disk := save_config committedConfig } = some committedApp := by decide
  have h2 := (hthm (str "notepad.exe") 12345).2.1 (by decide) (by decide)
    committedConfig committedApp hset hload
  exact ⟨(hthm (str "x") 7).1 rfl, h2.1, h2.2.1, h2.2.2.1,
    (hthm [] 12345).2.2 (by decide) rfl⟩

theorem configSet_some_has_section {cfg cfg' : PyConfig} {sect key val : Str}
    (h : configSet cfg sect key val = some cfg') : has_section cfg sect = true := by
  unfold configSet at h
  split at h
  · assumption
  · exact absurd h (by simp)

/-- Claim C8: the watch-list accessor always returns exactly 3 ordered
entries, with unset slots reported as the empty string; clearing slot `n`
(`deleteProgram`) writes `''` to `Program{n}`, persists immediately (the
on-disk file equals the saved in-memory state), makes the cleared slot
immediately visible as `''`, and a fresh reload of the persisted file still
shows the cleared value. -/
theorem c8_watchlist_three_slots_clear_persists (st : TimerApp) (n : Nat) (st' : TimerApp)
    (hn : n = 1 ∨ n = 2 ∨ n = 3)
    (hclear : clearProgram n st = some st') :
    (∀ cfg, (get_all_programs cfg).length = 3) ∧
    (∀ cfg, configGet cfg (str "section") (str "program1") = none →
        configGet cfg (str "section") (str "program2") = none →
        configGet cfg (str "section") (str "program3") = none →
        get_all_programs cfg = [[], [], []]) ∧
    st'.watched_programs.get? (n - 1) = some [] ∧
    st'.disk = save_config st'.config ∧
    load_config st'.disk = .ok (st'.config, st'.disk) ∧
    (get_all_programs st'.config).get? (n - 1) = some [] := by
  refine ⟨fun cfg => rfl, ?_, ?_⟩
  · intro cfg h1 h2 h3
    unfold get_all_programs get_value_str
    rw [show lowerStr (str "Program1") = str "program1" from by decide,
      show lowerStr (str "Program2") = str "program2" from by decide,
      show lowerStr (str "Program3") = str "program3" from by decide, h1, h2, h3]
  · simp only [clearProgram, Option.bind_eq_bind, Option.bind_eq_some] at hclear
    obtain ⟨cfg1, hset, hload⟩ := hclear
    unfold set_value at hset
    have hspec := loadConfig_spec _ _ hload
    have hconfig : st'.config = cfg1 := hspec.1
    have hdisk : st'.disk = save_config cfg1 := hspec.2.1
    have hwatched : st'.watched_programs = get_all_programs cfg1 := hspec.2.2.1
    have hsec1 : has_section cfg1 (str "section") = true := by
      rw [has_section_configSet hset]
      exact configSet_some_has_section hset
    have hget := configGet_configSet_self hset
    have hslot : (get_all_programs cfg1).get? (n - 1) = some [] := by
      rcases hn with rfl | rfl | rfl
      · rw [show lowerStr (str "Program" ++ natToStr 1) = str "program1" from by decide] at hget
        show some (get_value_str cfg1 (str "Program1") []) = some []
        unfold get_value_str
        rw [show lowerStr (str "Program1") = str "program1" from by decide, hget]
        rfl
      · rw [show lowerStr (str "Program" ++ natToStr 2) = str "program2" from by decide] at hget
        show some (get_value_str cfg1 (str "Program2") []) = some []
        unfold get_value_str
        rw [show lowerStr (str "Program2") = str "program2" from by decide, hget]
        rfl
      · rw [show lowerStr (str "Program" ++ natToStr 3) = str "program3" from by decide] at hget
        show some (get_value_str cfg1 (str "Program3") []) = some []
        unfold get_value_str
        rw [show lowerStr (str "Program3") = str "program3" from by decide, hget]
        rfl
    refine ⟨by rw [hwatched]; exact hslot, by rw [hconfig, hdisk], ?_, by rw [hconfig]; exact hslot⟩
    rw [hconfig, hdisk]
    exact load_config_stored cfg1 hsec1

/-- Witness for C8: clearing slot 2 on the startup state persists and a fresh
reload of the persisted file still reports slot 2 as empty. -/
theorem c8_witness :
    clearProgram 2 sampleApp = some clearedApp ∧
    clearedApp.watched_programs.get? 1 = some [] ∧
    clearedApp.disk = save_config clearedApp.config ∧
    load_config clearedApp.disk = .ok (clearedApp.config, clearedApp.disk) ∧
    (get_all_programs clearedApp.config).get? 1 = some [] := by
  have hclear : clearProgram 2 sampleApp = some clearedApp := by decide
  have hthm := c8_watchlist_three_slots_clear_persists sampleApp 2 clearedApp
    (Or.inr (Or.inl rfl)) hclear
  exact ⟨hclear, hthm.2.2.1, hthm.2.2.2.1, hthm.2.2.2.2.1, hthm.2.2.2.2.2⟩

/-- Claim C10: while no assignment is pending, a pointer click is a complete
no-op: the click handler forwards to the window probe only when the waiting
flag is set, so the watch-list, the configuration, the elapsed time and the
Running/Idle state are all untouched and no side effect is produced — and
even a stray probe result delivered while not waiting is ignored. -/
theorem c10_click_noop_when_not_waiting (st : TimerApp)
    (hw : st.waitingForWindowSelection = false) :
    (∀ x y r, processClick x y r st = some (st, [])) ∧
    (∀ t p, set_program_from_info t p st = some (st, [])) := by
  constructor
  · intro x y r
    unfold processClick
    rw [hw]
    simp
  · intro t p
    unfold set_program_from_info
    rw [hw]
    simp

/-- Witness for C10 at the startup state (not waiting): a click at (5, 6)
resolving to `("notepad.exe", 42)` changes nothing. -/
theorem c10_witness :
    processClick 5 6 (str "notepad.exe", 42) sampleApp = some (sampleApp, []) ∧
    set_program_from_info (str "notepad.exe") 42 sampleApp = some (sampleApp, []) :=
  ⟨(c10_click_noop_when_not_waiting sampleApp rfl).1 5 6 (str "notepad.exe", 42),
   (c10_click_noop_when_not_waiting sampleApp rfl).2 (str "notepad.exe") 42⟩

end TimerChan
